import Mathlib

/-!
Shallow embedding of the real-time room-subscription engine of the
NeuralFlow backend: `src/workers/socketManager.js` together with the
socket authentication middleware (`decodeSocketAuth`) and the startup
path of `src/server.js`.

JS `Map<string, Set<string>>` tables (the in-memory `userSockets`
registry, the socket.io adapter's room membership) and the Redis set
keyspace are all modelled as first-match association lists from string
keys to lists of member strings.  Every event handler of the source is a
total Lean function on an explicit engine state; a `redisOk : Bool`
argument says whether the Redis call made by that handler succeeds, and
the function's result is what the JS handler leaves behind after its
`try/catch` (errors are only logged, so a failing Redis call simply
leaves the durable store unchanged).
-/

namespace NeuralFlow

/-- A string-keyed map whose values are string sets, modelled as a
first-match association list. -/
abbrev SMap := List (String × List String)

/-- Insert a member into a set kept as a list (no-op when already
present), mirroring JS `Set.add` / the member semantics of Redis `sAdd`. -/
def setInsert (vs : List String) (v : String) : List String :=
  if v ∈ vs then vs else vs ++ [v]

/-- Remove a member from a set kept as a list, mirroring JS `Set.delete` /
the member semantics of Redis `sRem`. -/
def removeAll (vs : List String) (v : String) : List String :=
  vs.filter (fun x => x ≠ v)

/-- First-match lookup in an association list (JS `Map.get`). -/
def alGet : SMap → String → Option (List String)
  | [], _ => none
  | (k', vs) :: rest, k => if k' = k then some vs else alGet rest k

/-- Add a member to the set stored under a key, creating the key when it
is absent (Redis `sAdd`; also the `if (!map.has(k)) map.set(k, new Set())`
followed by `map.get(k).add(v)` idiom of the registry). -/
def alAdd : SMap → String → String → SMap
  | [], k, v => [(k, [v])]
  | (k', vs) :: rest, k, v =>
    if k' = k then (k', setInsert vs v) :: rest
    else (k', vs) :: alAdd rest k v

/-- Remove a member from the set stored under a key (Redis `sRem`,
`map.get(k).delete(v)`). -/
def alRemove : SMap → String → String → SMap
  | [], _, _ => []
  | (k', vs) :: rest, k, v =>
    if k' = k then (k', removeAll vs v) :: rest
    else (k', vs) :: alRemove rest k v

/-- The members of the set stored under a key (Redis `sMembers`; an absent
key is the empty set). -/
def sMembers (m : SMap) (k : String) : List String := (alGet m k).getD []

/-- `userRoomsKey` from socketManager.js. -/
def userRoomsKey (userId : String) : String := "userRooms:" ++ userId

/-- The engine-relevant shape of a socket.io socket: its id, the verified
identity attached by the auth middleware (`socket.user?.uid`), and the
`socket.isWorker` flag the connection handler branches on. -/
structure Socket where
  sid : String
  user : Option String
  isWorker : Bool
deriving DecidableEq

/-- A socket as the transport hands it to the middleware chain: no user
attached yet, and no `isWorker` property set (socket.io creates sockets
without that property, so reading it yields a falsy value). -/
def freshSocket (sid : String) : Socket := ⟨sid, none, false⟩

/-- Engine state: the in-memory `userSockets` registry (identity to live
socket ids), the transport-level room membership (room name to joined
socket ids, the socket.io adapter's view), and the Redis keyspace. -/
structure EngineState where
  userSockets : SMap
  rooms : SMap
  redis : SMap
deriving DecidableEq

/-- Which `socket.on(...)` handlers the connection handler installed on a
socket before returning. -/
structure InstalledHandlers where
  aiResult : Bool
  subscribe : Bool
  unsubscribe : Bool
  disconnect : Bool
deriving DecidableEq

/-- `socket.join(roomName)`: transport-level join, a pure set insertion. -/
def joinRoom (st : EngineState) (sid roomName : String) : EngineState :=
  { st with rooms := alAdd st.rooms roomName sid }

/-- `socket.leave(roomName)`: transport-level leave. -/
def leaveRoom (st : EngineState) (sid roomName : String) : EngineState :=
  { st with rooms := alRemove st.rooms roomName sid }

/-- The `subscribe` handler of socketManager.js: compute
`roomName = type + ":" + id`, join the socket to it at the transport
level, then `sAdd` the room into `userRooms:<uid>`.  When the Redis call
fails (`redisOk = false`) the catch block only logs, so the join is kept
and the durable store is untouched. -/
def subscribeHandler (st : EngineState) (sid uid ty i : String)
    (redisOk : Bool) : EngineState :=
  let roomName := ty ++ ":" ++ i
  let st1 := joinRoom st sid roomName
  if redisOk then
    { st1 with redis := alAdd st1.redis (userRoomsKey uid) roomName }
  else st1

/-- The `unsubscribe` handler of socketManager.js: leave the transport
room, then `sRem` it from `userRooms:<uid>`; a failing Redis call is only
logged. -/
def unsubscribeHandler (st : EngineState) (sid uid ty i : String)
    (redisOk : Bool) : EngineState :=
  let roomName := ty ++ ":" ++ i
  let st1 := leaveRoom st sid roomName
  if redisOk then
    { st1 with redis := alRemove st1.redis (userRoomsKey uid) roomName }
  else st1

/-- The `disconnect` handler of socketManager.js for a user socket: remove
the socket id from the identity's in-memory set and delete the identity's
entry once the set is empty.  Nothing else is touched. -/
def registryDisconnect : SMap → String → String → SMap
  | [], _, _ => []
  | (k, vs) :: rest, uid, sid =>
    if k = uid then
      if removeAll vs sid = [] then rest
      else (k, removeAll vs sid) :: rest
    else (k, vs) :: registryDisconnect rest uid sid

/-- The code of the `disconnect` handler: it mutates only `userSockets`. -/
def disconnectHandler (st : EngineState) (uid sid : String) : EngineState :=
  { st with userSockets := registryDisconnect st.userSockets uid sid }

/-- What the transport itself does when a socket disconnects: the
socket.io adapter drops the socket id from every room.  This is platform
behaviour, not code of socketManager.js. -/
def transportCleanup (st : EngineState) (sid : String) : EngineState :=
  { st with rooms := st.rooms.map (fun kv => (kv.1, removeAll kv.2 sid)) }

/-- A complete disconnect of a user socket: the adapter's room cleanup
plus the engine's `disconnect` handler. -/
def fullDisconnect (st : EngineState) (uid sid : String) : EngineState :=
  disconnectHandler (transportCleanup st sid) uid sid

/-- The connection handler installed by `initializeSocketManager`:
worker-tagged sockets get only the `ai:result` and `disconnect` handlers
and the handler returns with the state untouched; sockets without a
`socket.user?.uid` get nothing at all; a user socket is tracked in the
registry, joins its personal room `user:<uid>`, and is rejoined to every
room listed under `userRooms:<uid>` (when the `sMembers` call fails the
catch block logs and no stored room is joined). -/
def connectionHandler (st : EngineState) (sock : Socket)
    (redisOk : Bool) : EngineState × InstalledHandlers :=
  if sock.isWorker then
    (st, ⟨true, false, false, true⟩)
  else
    match sock.user with
    | none => (st, ⟨false, false, false, false⟩)
    | some uid =>
      let st1 := { st with userSockets := alAdd st.userSockets uid sock.sid }
      let st2 := joinRoom st1 sock.sid ("user:" ++ uid)
      let st3 :=
        if redisOk then
          (sMembers st2.redis (userRoomsKey uid)).foldl
            (fun s r => joinRoom s sock.sid r) st2
        else st2
      (st3, ⟨false, true, true, true⟩)

/-- One delivered event: which socket received it, the event name, and the
payload. -/
structure Delivery (α : Type) where
  sid : String
  event : String
  payload : α
deriving DecidableEq

/-- `io.to(roomName).emit(event, data)`: deliver the event to every socket
currently joined to the room, and to nobody else. -/
def ioEmit {α : Type} (rooms : SMap) (roomName event : String) (p : α) :
    List (Delivery α) :=
  (sMembers rooms roomName).map (fun s => ⟨s, event, p⟩)

/-- `emitToRoom` from socketManager.js: guarded by `if (ioInstance)`, then
`ioInstance.to(roomName).emit(event, data)`. -/
def emitToRoom {α : Type} (ioReady : Bool) (rooms : SMap)
    (roomName event : String) (p : α) : List (Delivery α) :=
  if ioReady then ioEmit rooms roomName event p else []

/-- `emitToRoom` viewed against a whole engine state: it reads only the
transport-level room membership. -/
def publishFromState {α : Type} (ioReady : Bool) (st : EngineState)
    (roomName event : String) (p : α) : List (Delivery α) :=
  emitToRoom ioReady st.rooms roomName event p

/-- The payload a worker sends on `ai:result`. -/
structure AiResult where
  type : String
  taskId : String
  projectId : String
  data : String
deriving DecidableEq

/-- The payload the engine broadcasts as `ai:completed`. -/
structure AiCompleted where
  type : String
  taskId : String
  data : String
deriving DecidableEq

/-- The `ai:result` handler of the worker branch:
`io.to("project:" + data.projectId).emit("ai:completed", {type, taskId, data})`. -/
def aiResultHandler (rooms : SMap) (d : AiResult) : List (Delivery AiCompleted) :=
  ioEmit rooms ("project:" ++ d.projectId) "ai:completed"
    ⟨d.type, d.taskId, d.data⟩

/-- The `reconnectStrategy` of the Redis client in socketManager.js:
`retries > 3` yields an Error (the client stops retrying), otherwise the
next delay is `min(retries * 100, 3000)` milliseconds. -/
def reconnectStrategy (retries : Nat) : Except String Nat :=
  if retries > 3 then Except.error "Max reconnection attempts reached"
  else Except.ok (min (retries * 100) 3000)

/-- The `await redisClient.connect()` step of `initializeSocketManager`:
on failure the error is logged and rethrown to the caller. -/
def socketManagerInit (connectOk : Bool) : Except String Unit :=
  if connectOk then Except.ok () else Except.error "Failed to connect to Redis"

/-- The async startup block of server.js: a rejection from
`initializeSocketManager` reaches the catch block, which logs and calls
`process.exit(1)`.  `some c` means the process terminated with exit code
`c`; `none` means startup proceeded. -/
def serverStartup (connectOk : Bool) : Option Nat :=
  match socketManagerInit connectOk with
  | Except.ok _ => none
  | Except.error _ => some 1

/-- The raw credentials available to the socket middleware: the `token=`
cookie of the handshake headers, and `handshake.auth.token`. -/
structure Handshake where
  cookieToken : Option String
  authToken : Option String
deriving DecidableEq

/-- The `decodeSocketAuth` middleware (the only `io.use` middleware
installed by server.js): take the cookie token, fall back to
`handshake.auth.token`, reject when absent; otherwise `verifyIdToken`
(abstracted as `verify`, returning the decoded uid of a valid Firebase ID
token) either rejects the connection or attaches the decoded user to the
socket.  Nothing in the middleware writes `socket.isWorker`. -/
def decodeSocketAuth (verify : String → Option String) (sock : Socket)
    (hs : Handshake) : Except String Socket :=
  let token :=
    match hs.cookieToken with
    | some t => some t
    | none => hs.authToken
  match token with
  | none => Except.error "No authentication token provided"
  | some t =>
    match verify t with
    | some uid => Except.ok { sock with user := some uid }
    | none => Except.error "Invalid authentication token"

/-! ## Basic lemmas about the set-map operations -/

theorem mem_setInsert_self (vs : List String) (v : String) :
    v ∈ setInsert vs v := by
  unfold setInsert
  by_cases h : v ∈ vs
  · simp [h]
  · simp [h]

theorem mem_setInsert_of_mem {vs : List String} {x : String} (v : String)
    (h : x ∈ vs) : x ∈ setInsert vs v := by
  unfold setInsert
  by_cases hv : v ∈ vs <;> simp [hv, h]

theorem eq_or_mem_of_mem_setInsert {vs : List String} {x v : String}
    (h : x ∈ setInsert vs v) : x ∈ vs ∨ x = v := by
  unfold setInsert at h
  by_cases hv : v ∈ vs
  · simp [hv] at h
    exact Or.inl h
  · simp [hv] at h
    exact h

theorem mem_removeAll {vs : List String} {x v : String} :
    x ∈ removeAll vs v ↔ x ∈ vs ∧ x ≠ v := by
  simp [removeAll]

theorem not_mem_removeAll_self (vs : List String) (v : String) :
    v ∉ removeAll vs v := by
  intro h
  exact (mem_removeAll.mp h).2 rfl

theorem not_mem_removeAll_of_not_mem {vs : List String} {x : String}
    (v : String) (h : x ∉ vs) : x ∉ removeAll vs v := by
  intro hx
  exact h (mem_removeAll.mp hx).1

theorem alGet_alAdd_self (m : SMap) (k v : String) :
    alGet (alAdd m k v) k = some (setInsert (sMembers m k) v) := by
  induction m with
  | nil => simp [alAdd, alGet, sMembers, setInsert]
  | cons hd tl ih =>
    obtain ⟨k', vs⟩ := hd
    by_cases h : k' = k
    · simp [alAdd, alGet, sMembers, h]
    · simp [alAdd, alGet, sMembers, h] at ih ⊢
      exact ih

theorem alGet_alAdd_ne (m : SMap) {k k' : String} (v : String)
    (h : k' ≠ k) : alGet (alAdd m k v) k' = alGet m k' := by
  induction m with
  | nil => simp [alAdd, alGet, Ne.symm h]
  | cons hd tl ih =>
    obtain ⟨k₀, vs⟩ := hd
    by_cases h0 : k₀ = k
    · subst h0
      simp [alAdd, alGet, Ne.symm h]
    · simp [alAdd, alGet, h0, ih]

theorem sMembers_alAdd_self (m : SMap) (k v : String) :
    v ∈ sMembers (alAdd m k v) k := by
  simp [sMembers, alGet_alAdd_self]
  exact mem_setInsert_self _ _

theorem sMembers_alAdd_eq (m : SMap) (k v : String) :
    sMembers (alAdd m k v) k = setInsert (sMembers m k) v := by
  simp [sMembers, alGet_alAdd_self]

theorem sMembers_alAdd_ne (m : SMap) {k k' : String} (v : String)
    (h : k' ≠ k) : sMembers (alAdd m k v) k' = sMembers m k' := by
  simp [sMembers, alGet_alAdd_ne m v h]

theorem mem_sMembers_alAdd_of_mem {m : SMap} {k x : String}
    (k' v : String) (h : x ∈ sMembers m k) :
    x ∈ sMembers (alAdd m k' v) k := by
  by_cases hk : k' = k
  · subst hk
    rw [sMembers_alAdd_eq]
    exact mem_setInsert_of_mem v h
  · rw [sMembers_alAdd_ne m v (fun he => hk he.symm)]
    exact h

theorem not_mem_sMembers_alAdd_ne_key {m : SMap} {k k' x : String}
    (v : String) (hk : k' ≠ k) (h : x ∉ sMembers m k) :
    x ∉ sMembers (alAdd m k' v) k := by
  rw [sMembers_alAdd_ne m v (Ne.symm hk)]
  exact h

theorem sMembers_alRemove_self (m : SMap) (k v : String) :
    sMembers (alRemove m k v) k = removeAll (sMembers m k) v := by
  induction m with
  | nil => simp [alRemove, sMembers, alGet, removeAll]
  | cons hd tl ih =>
    obtain ⟨k', vs⟩ := hd
    by_cases h : k' = k
    · simp [alRemove, sMembers, alGet, h]
    · simp [alRemove, sMembers, alGet, h] at ih ⊢
      exact ih

theorem alGet_map_removeAll (m : SMap) (k v : String) :
    alGet (m.map (fun kv => (kv.1, removeAll kv.2 v))) k
      = (alGet m k).map (fun vs => removeAll vs v) := by
  induction m with
  | nil => simp [alGet]
  | cons hd tl ih =>
    obtain ⟨k', vs⟩ := hd
    by_cases h : k' = k
    · simp [alGet, h]
    · simp [alGet, h, ih]

theorem alGet_eq_none_of_not_mem_keys {m : SMap} {k : String}
    (h : k ∉ m.map Prod.fst) : alGet m k = none := by
  induction m with
  | nil => rfl
  | cons hd tl ih =>
    obtain ⟨k', vs⟩ := hd
    rw [List.map_cons] at h
    have h1 : k' ≠ k := fun he => h (by simp [he])
    have h2 : k ∉ tl.map Prod.fst := fun ht => h (List.mem_cons_of_mem _ ht)
    simp [alGet, h1]
    exact ih h2

theorem registryDisconnect_alGet (m : SMap) (uid sid : String)
    (hnd : (m.map Prod.fst).Nodup) :
    alGet (registryDisconnect m uid sid) uid
      = (if removeAll (sMembers m uid) sid = [] then none
         else some (removeAll (sMembers m uid) sid)) := by
  induction m with
  | nil => simp [registryDisconnect, sMembers, alGet, removeAll]
  | cons hd tl ih =>
    obtain ⟨k, vs⟩ := hd
    rw [List.map_cons] at hnd
    have hk : (k, vs).1 ∉ tl.map Prod.fst := (List.nodup_cons.mp hnd).1
    have htl : (tl.map Prod.fst).Nodup := (List.nodup_cons.mp hnd).2
    by_cases h : k = uid
    · subst h
      have hmem : sMembers ((k, vs) :: tl) k = vs := by
        simp [sMembers, alGet]
      rw [hmem]
      by_cases he : removeAll vs sid = []
      · simp [registryDisconnect, he]
        exact alGet_eq_none_of_not_mem_keys hk
      · simp [registryDisconnect, he, alGet]
    · have hmem : sMembers ((k, vs) :: tl) uid = sMembers tl uid := by
        simp [sMembers, alGet, h]
      rw [hmem]
      simp only [registryDisconnect, if_neg h]
      rw [alGet]
      simp [h]
      exact ih htl

/-! ## Lemmas about the engine-state operations -/

theorem foldl_joinRoom_userSockets (l : List String) (st : EngineState)
    (sid : String) :
    (l.foldl (fun s r => joinRoom s sid r) st).userSockets = st.userSockets := by
  induction l generalizing st with
  | nil => rfl
  | cons a tl ih =>
    simp only [List.foldl_cons]
    rw [ih]
    rfl

theorem foldl_joinRoom_redis (l : List String) (st : EngineState)
    (sid : String) :
    (l.foldl (fun s r => joinRoom s sid r) st).redis = st.redis := by
  induction l generalizing st with
  | nil => rfl
  | cons a tl ih =>
    simp only [List.foldl_cons]
    rw [ih]
    rfl

theorem mem_foldl_joinRoom_of_mem (l : List String) {st : EngineState}
    (sid : String) {x r : String} (h : x ∈ sMembers st.rooms r) :
    x ∈ sMembers (l.foldl (fun s r' => joinRoom s sid r') st).rooms r := by
  induction l generalizing st with
  | nil => exact h
  | cons a tl ih =>
    simp only [List.foldl_cons]
    exact ih (mem_sMembers_alAdd_of_mem a sid h)

theorem mem_foldl_joinRoom_self (l : List String) (st : EngineState)
    (sid : String) {r : String} (h : r ∈ l) :
    sid ∈ sMembers (l.foldl (fun s r' => joinRoom s sid r') st).rooms r := by
  induction l generalizing st with
  | nil => cases h
  | cons a tl ih =>
    simp only [List.foldl_cons]
    rcases List.mem_cons.mp h with h | h
    · subst h
      exact mem_foldl_joinRoom_of_mem tl sid (sMembers_alAdd_self st.rooms r sid)
    · exact ih _ h

theorem not_mem_foldl_joinRoom (l : List String) {st : EngineState}
    {sid r : String} (hl : r ∉ l) (h : sid ∉ sMembers st.rooms r) :
    sid ∉ sMembers (l.foldl (fun s r' => joinRoom s sid r') st).rooms r := by
  induction l generalizing st with
  | nil => exact h
  | cons a tl ih =>
    simp only [List.foldl_cons]
    have ha : a ≠ r := by
      intro he
      exact hl (by simp [he])
    exact ih (fun ht => hl (List.mem_cons_of_mem a ht))
      (not_mem_sMembers_alAdd_ne_key sid ha h)

theorem sMembers_transportCleanup (st : EngineState) (sid r : String) :
    sMembers (transportCleanup st sid).rooms r
      = removeAll (sMembers st.rooms r) sid := by
  show sMembers (st.rooms.map (fun kv => (kv.1, removeAll kv.2 sid))) r = _
  rw [sMembers, alGet_map_removeAll]
  cases h : alGet st.rooms r
  · simp [sMembers, h, removeAll]
  · simp [sMembers, h]

theorem fullDisconnect_redis (st : EngineState) (uid sid : String) :
    (fullDisconnect st uid sid).redis = st.redis := rfl

theorem fullDisconnect_rooms (st : EngineState) (uid sid r : String) :
    sMembers (fullDisconnect st uid sid).rooms r
      = removeAll (sMembers st.rooms r) sid :=
  sMembers_transportCleanup st sid r

/-- Unfolding of the connection handler on a user socket with a working
store. -/
theorem connectionHandler_user_true (st : EngineState) (sid uid : String) :
    (connectionHandler st ⟨sid, some uid, false⟩ true).1
      = (sMembers st.redis (userRoomsKey uid)).foldl
          (fun s r => joinRoom s sid r)
          ⟨alAdd st.userSockets uid sid,
           alAdd st.rooms ("user:" ++ uid) sid, st.redis⟩ := rfl

/-- Unfolding of the connection handler on a user socket with an
unavailable store. -/
theorem connectionHandler_user_false (st : EngineState) (sid uid : String) :
    (connectionHandler st ⟨sid, some uid, false⟩ false).1
      = ⟨alAdd st.userSockets uid sid,
         alAdd st.rooms ("user:" ++ uid) sid, st.redis⟩ := rfl

theorem connectionHandler_user_redis (st : EngineState) (sid uid : String)
    (ok : Bool) :
    (connectionHandler st ⟨sid, some uid, false⟩ ok).1.redis = st.redis := by
  cases ok
  · rfl
  · rw [connectionHandler_user_true]
    exact foldl_joinRoom_redis _ _ _

theorem connectionHandler_user_userSockets (st : EngineState)
    (sid uid : String) (ok : Bool) :
    (connectionHandler st ⟨sid, some uid, false⟩ ok).1.userSockets
      = alAdd st.userSockets uid sid := by
  cases ok
  · rfl
  · rw [connectionHandler_user_true]
    exact foldl_joinRoom_userSockets _ _ _

theorem connectionHandler_personal_mem (st : EngineState) (sid uid : String)
    (ok : Bool) :
    sid ∈ sMembers (connectionHandler st ⟨sid, some uid, false⟩ ok).1.rooms
      ("user:" ++ uid) := by
  cases ok
  · rw [connectionHandler_user_false]
    exact sMembers_alAdd_self st.rooms _ sid
  · rw [connectionHandler_user_true]
    exact mem_foldl_joinRoom_of_mem _ sid (sMembers_alAdd_self st.rooms _ sid)

theorem connectionHandler_rejoins (st : EngineState) (sid uid : String)
    {r : String} (h : r ∈ sMembers st.redis (userRoomsKey uid)) :
    sid ∈ sMembers (connectionHandler st ⟨sid, some uid, false⟩ true).1.rooms r := by
  rw [connectionHandler_user_true]
  exact mem_foldl_joinRoom_self _ _ sid h

theorem connectionHandler_mono (st : EngineState) (sid uid : String)
    (ok : Bool) {x r : String} (h : x ∈ sMembers st.rooms r) :
    x ∈ sMembers (connectionHandler st ⟨sid, some uid, false⟩ ok).1.rooms r := by
  cases ok
  · rw [connectionHandler_user_false]
    exact mem_sMembers_alAdd_of_mem _ sid h
  · rw [connectionHandler_user_true]
    exact mem_foldl_joinRoom_of_mem _ sid (mem_sMembers_alAdd_of_mem _ sid h)

theorem connectionHandler_not_joined (st : EngineState) {sid2 uid r : String}
    (h2 : r ≠ "user:" ++ uid)
    (h1 : r ∉ sMembers st.redis (userRoomsKey uid))
    (h3 : sid2 ∉ sMembers st.rooms r) :
    sid2 ∉ sMembers (connectionHandler st ⟨sid2, some uid, false⟩ true).1.rooms r := by
  rw [connectionHandler_user_true]
  exact not_mem_foldl_joinRoom _ h1
    (not_mem_sMembers_alAdd_ne_key sid2 (Ne.symm h2) h3)

theorem subscribeHandler_true_redis (st : EngineState) (sid uid ty i : String) :
    (subscribeHandler st sid uid ty i true).redis
      = alAdd st.redis (userRoomsKey uid) (ty ++ ":" ++ i) := rfl

theorem mem_ioEmit_iff {α : Type} (rooms : SMap) (roomName event : String)
    (p : α) (s : String) :
    (⟨s, event, p⟩ : Delivery α) ∈ ioEmit rooms roomName event p
      ↔ s ∈ sMembers rooms roomName := by
  simp [ioEmit, Delivery.mk.injEq]

theorem mem_ioEmit_shape {α : Type} {rooms : SMap} {roomName event : String}
    {p : α} {d : Delivery α} (h : d ∈ ioEmit rooms roomName event p) :
    d.sid ∈ sMembers rooms roomName ∧ d.event = event ∧ d.payload = p := by
  simp [ioEmit] at h
  obtain ⟨x, hx, he⟩ := h
  subst he
  exact ⟨hx, rfl, rfl⟩

/-! ## The claims -/

/-- C1: rehydration round-trip.  For every identity `uid` and room
`ty ++ ":" ++ i`, if the `subscribe` handler succeeds (joins the socket
to the room and writes the room into the Redis set `userRooms:<uid>`) and
the connection then disconnects, a new connection for the same identity
is automatically joined to the room during the connection handler's
rehydration, which reads `sMembers(userRooms:<uid>)` and rejoins every
listed room. -/
theorem c1_rehydration_roundtrip (st : EngineState)
    (sid1 sid2 uid ty i : String) :
    sid2 ∈ sMembers
      ((connectionHandler
          (fullDisconnect (subscribeHandler st sid1 uid ty i true) uid sid1)
          ⟨sid2, some uid, false⟩ true).1.rooms)
      (ty ++ ":" ++ i) := by
  apply connectionHandler_rejoins
  rw [fullDisconnect_redis, subscribeHandler_true_redis]
  exact sMembers_alAdd_self st.redis (userRoomsKey uid) (ty ++ ":" ++ i)

/-- C2: disconnect asymmetry / frame property.  The `disconnect` handler
mutates only the in-memory registry: it removes the socket id from
`userSockets` and deletes the identity's entry once the set is empty,
while the Redis keyspace and the transport rooms are untouched; hence a
durably subscribed room survives the disconnect and a reconnect for the
same identity still rejoins it. -/
theorem c2_disconnect_frame (st : EngineState) (sid sid2 uid ty i : String)
    (hnd : (st.userSockets.map Prod.fst).Nodup) :
    (disconnectHandler st uid sid).redis = st.redis
    ∧ (disconnectHandler st uid sid).rooms = st.rooms
    ∧ alGet (disconnectHandler st uid sid).userSockets uid
        = (if removeAll (sMembers st.userSockets uid) sid = [] then none
           else some (removeAll (sMembers st.userSockets uid) sid))
    ∧ sid2 ∈ sMembers
        ((connectionHandler
            (disconnectHandler (subscribeHandler st sid uid ty i true) uid sid)
            ⟨sid2, some uid, false⟩ true).1.rooms)
        (ty ++ ":" ++ i) := by
  refine ⟨rfl, rfl, registryDisconnect_alGet st.userSockets uid sid hnd, ?_⟩
  apply connectionHandler_rejoins
  show (ty ++ ":" ++ i) ∈ sMembers (subscribeHandler st sid uid ty i true).redis _
  rw [subscribeHandler_true_redis]
  exact sMembers_alAdd_self st.redis (userRoomsKey uid) (ty ++ ":" ++ i)

/-- Closed witness for C2 at a concrete state with a duplicate-free
registry. -/
theorem c2_disconnect_frame_witness :
    (disconnectHandler ⟨[("u1", ["s1"])], [], []⟩ "u1" "s1").redis = ([] : SMap)
    ∧ alGet (disconnectHandler ⟨[("u1", ["s1"])], [], []⟩ "u1" "s1").userSockets "u1"
        = none := by
  have h := c2_disconnect_frame ⟨[("u1", ["s1"])], [], []⟩ "s1" "s2" "u1"
    "task" "9" (by decide)
  refine ⟨h.1, ?_⟩
  rw [h.2.2.1]
  decide

/-- C3: publish fan-out exactness.  With the engine initialized,
`emitToRoom` delivers the event with its payload to exactly the sockets
currently joined to the room (every joined socket receives it, every
delivery goes to a joined socket and carries the given event name and
payload), an empty room drops the event, and the result depends only on
the transport-level membership, never on the registry or the durable
store. -/
theorem c3_publish_fanout (rooms : SMap) (r e p : String) :
    (∀ s, s ∈ sMembers rooms r →
        (⟨s, e, p⟩ : Delivery String) ∈ emitToRoom true rooms r e p)
    ∧ (∀ d : Delivery String, d ∈ emitToRoom true rooms r e p →
        d.sid ∈ sMembers rooms r ∧ d.event = e ∧ d.payload = p)
    ∧ (sMembers rooms r = [] → emitToRoom true rooms r e p = [])
    ∧ (∀ us us' red red' : SMap,
        publishFromState true ⟨us, rooms, red⟩ r e p
          = publishFromState true ⟨us', rooms, red'⟩ r e p) := by
  refine ⟨?_, ?_, ?_, ?_⟩
  · intro s hs
    show (⟨s, e, p⟩ : Delivery String) ∈ ioEmit rooms r e p
    exact (mem_ioEmit_iff rooms r e p s).mpr hs
  · intro d hd
    exact mem_ioEmit_shape hd
  · intro h
    show ioEmit rooms r e p = []
    simp [ioEmit, h]
  · intro us us' red red'
    rfl

/-- Closed witness for C3 at a one-room, one-socket state. -/
theorem c3_publish_fanout_witness :
    (⟨"s1", "ev", "pl"⟩ : Delivery String)
      ∈ emitToRoom true [("room1", ["s1"])] "room1" "ev" "pl" :=
  (c3_publish_fanout [("room1", ["s1"])] "room1" "ev" "pl").1 "s1" (by decide)

/-- C5: worker isolation and direct routing.  A worker-tagged socket makes
the connection handler return with the engine state untouched (so it never
enters the registry under any identity) and with only the `ai:result` and
`disconnect` handlers installed; and an `ai:result` payload is broadcast
as `ai:completed` carrying `{type, taskId, data}` to exactly the sockets
joined to `project:<projectId>`, with no subscription by the worker. -/
theorem c5_worker_isolation (st : EngineState) (sid : String)
    (u : Option String) (ok : Bool) (d : AiResult) :
    connectionHandler st ⟨sid, u, true⟩ ok = (st, ⟨true, false, false, true⟩)
    ∧ (∀ uid, sMembers (connectionHandler st ⟨sid, u, true⟩ ok).1.userSockets uid
        = sMembers st.userSockets uid)
    ∧ (∀ s, (⟨s, "ai:completed", ⟨d.type, d.taskId, d.data⟩⟩ : Delivery AiCompleted)
          ∈ aiResultHandler st.rooms d
        ↔ s ∈ sMembers st.rooms ("project:" ++ d.projectId)) := by
  refine ⟨rfl, fun uid => rfl, fun s => ?_⟩
  exact mem_ioEmit_iff st.rooms ("project:" ++ d.projectId) "ai:completed"
    (⟨d.type, d.taskId, d.data⟩ : AiCompleted) s

/-- C7: degraded-mode subscribe.  When the durable write fails during
`subscribe` the transport-level join has already taken effect and is not
rolled back (events published to the room still reach the socket), the
durable store is unchanged, and a later reconnect of the identity with a
recovered store does not auto-rejoin the room, because it was never
recorded in the durable set. -/
theorem c7_degraded_subscribe (st : EngineState) (sid sid2 uid ty i e p : String)
    (h1 : (ty ++ ":" ++ i) ∉ sMembers st.redis (userRoomsKey uid))
    (h2 : (ty ++ ":" ++ i) ≠ "user:" ++ uid)
    (h3 : sid2 ∉ sMembers st.rooms (ty ++ ":" ++ i)) :
    sid ∈ sMembers (subscribeHandler st sid uid ty i false).rooms (ty ++ ":" ++ i)
    ∧ (subscribeHandler st sid uid ty i false).redis = st.redis
    ∧ (⟨sid, e, p⟩ : Delivery String)
        ∈ emitToRoom true (subscribeHandler st sid uid ty i false).rooms
            (ty ++ ":" ++ i) e p
    ∧ sid2 ∉ sMembers
        ((connectionHandler
            (fullDisconnect (subscribeHandler st sid uid ty i false) uid sid)
            ⟨sid2, some uid, false⟩ true).1.rooms)
        (ty ++ ":" ++ i) := by
  have hjoin : sid ∈ sMembers (subscribeHandler st sid uid ty i false).rooms
      (ty ++ ":" ++ i) :=
    sMembers_alAdd_self st.rooms (ty ++ ":" ++ i) sid
  refine ⟨hjoin, rfl, ?_, ?_⟩
  · show (⟨sid, e, p⟩ : Delivery String) ∈ ioEmit _ _ e p
    exact (mem_ioEmit_iff _ _ e p sid).mpr hjoin
  · apply connectionHandler_not_joined _ h2
    · rw [fullDisconnect_redis]
      exact h1
    · rw [fullDisconnect_rooms]
      intro hmem
      rcases mem_removeAll.mp hmem with ⟨hmem', hne⟩
      rw [show (subscribeHandler st sid uid ty i false).rooms
            = alAdd st.rooms (ty ++ ":" ++ i) sid from rfl,
          sMembers_alAdd_eq] at hmem'
      rcases eq_or_mem_of_mem_setInsert hmem' with h | h
      · exact h3 h
      · exact hne h

/-- Closed witness for C7. -/
theorem c7_degraded_subscribe_witness :
    "s1" ∈ sMembers
      (subscribeHandler ⟨[], [], []⟩ "s1" "u1" "task" "9" false).rooms
      ("task" ++ ":" ++ "9")
    ∧ "s2" ∉ sMembers
        ((connectionHandler
            (fullDisconnect (subscribeHandler ⟨[], [], []⟩ "s1" "u1" "task" "9" false)
              "u1" "s1")
            ⟨"s2", some "u1", false⟩ true).1.rooms)
        ("task" ++ ":" ++ "9") := by
  have h := c7_degraded_subscribe ⟨[], [], []⟩ "s1" "s2" "u1" "task" "9" "ev" "pl"
    (by decide) (by decide) (by decide)
  exact ⟨h.1, h.2.2.2⟩

/-- C8: unconditional personal room.  Every non-worker connection with a
verified identity joins the personal room `user:<uid>` at registration,
whatever the durable store holds and whether or not the store is even
reachable; with two simultaneous connections of one identity, both sockets
are in the personal room and both receive every event published to it. -/
theorem c8_personal_room (st : EngineState) (uid sid1 sid2 : String)
    (ok1 ok2 : Bool) (e p : String) :
    sid1 ∈ sMembers
      ((connectionHandler
          (connectionHandler st ⟨sid1, some uid, false⟩ ok1).1
          ⟨sid2, some uid, false⟩ ok2).1.rooms) ("user:" ++ uid)
    ∧ sid2 ∈ sMembers
        ((connectionHandler
            (connectionHandler st ⟨sid1, some uid, false⟩ ok1).1
            ⟨sid2, some uid, false⟩ ok2).1.rooms) ("user:" ++ uid)
    ∧ (⟨sid1, e, p⟩ : Delivery String)
        ∈ emitToRoom true
            ((connectionHandler
                (connectionHandler st ⟨sid1, some uid, false⟩ ok1).1
                ⟨sid2, some uid, false⟩ ok2).1.rooms) ("user:" ++ uid) e p
    ∧ (⟨sid2, e, p⟩ : Delivery String)
        ∈ emitToRoom true
            ((connectionHandler
                (connectionHandler st ⟨sid1, some uid, false⟩ ok1).1
                ⟨sid2, some uid, false⟩ ok2).1.rooms) ("user:" ++ uid) e p := by
  have m1 : sid1 ∈ sMembers
      ((connectionHandler
          (connectionHandler st ⟨sid1, some uid, false⟩ ok1).1
          ⟨sid2, some uid, false⟩ ok2).1.rooms) ("user:" ++ uid) :=
    connectionHandler_mono _ sid2 uid ok2
      (connectionHandler_personal_mem st sid1 uid ok1)
  have m2 : sid2 ∈ sMembers
      ((connectionHandler
          (connectionHandler st ⟨sid1, some uid, false⟩ ok1).1
          ⟨sid2, some uid, false⟩ ok2).1.rooms) ("user:" ++ uid) :=
    connectionHandler_personal_mem _ sid2 uid ok2
  exact ⟨m1, m2, (mem_ioEmit_iff _ _ e p sid1).mpr m1,
    (mem_ioEmit_iff _ _ e p sid2).mpr m2⟩

/-- C9: unsubscribe cancels rehydration.  After `unsubscribe` (which
leaves the transport room and removes it from `userRooms:<uid>`), the
durable set no longer lists the room, and a subsequent reconnect for the
identity is not auto-joined to it. -/
theorem c9_unsubscribe_cancels (st : EngineState) (sid sid2 uid ty i : String)
    (h2 : (ty ++ ":" ++ i) ≠ "user:" ++ uid)
    (h3 : sid2 ∉ sMembers st.rooms (ty ++ ":" ++ i)) :
    (ty ++ ":" ++ i) ∉ sMembers
        (unsubscribeHandler (subscribeHandler st sid uid ty i true)
          sid uid ty i true).redis (userRoomsKey uid)
    ∧ sid2 ∉ sMembers
        ((connectionHandler
            (fullDisconnect
              (unsubscribeHandler (subscribeHandler st sid uid ty i true)
                sid uid ty i true) uid sid)
            ⟨sid2, some uid, false⟩ true).1.rooms)
        (ty ++ ":" ++ i) := by
  have hredis : (ty ++ ":" ++ i) ∉ sMembers
      (unsubscribeHandler (subscribeHandler st sid uid ty i true)
        sid uid ty i true).redis (userRoomsKey uid) := by
    show (ty ++ ":" ++ i) ∉ sMembers
      (alRemove _ (userRoomsKey uid) (ty ++ ":" ++ i)) (userRoomsKey uid)
    rw [sMembers_alRemove_self]
    exact not_mem_removeAll_self _ _
  refine ⟨hredis, ?_⟩
  apply connectionHandler_not_joined _ h2
  · rw [fullDisconnect_redis]
    exact hredis
  · rw [fullDisconnect_rooms]
    apply not_mem_removeAll_of_not_mem
    show sid2 ∉ sMembers
      (alRemove (alAdd st.rooms (ty ++ ":" ++ i) sid) (ty ++ ":" ++ i) sid)
      (ty ++ ":" ++ i)
    rw [sMembers_alRemove_self]
    intro hmem
    rcases mem_removeAll.mp hmem with ⟨hmem', hne⟩
    rw [sMembers_alAdd_eq] at hmem'
    rcases eq_or_mem_of_mem_setInsert hmem' with h | h
    · exact h3 h
    · exact hne h

/-- Closed witness for C9. -/
theorem c9_unsubscribe_cancels_witness :
    ("task" ++ ":" ++ "9") ∉ sMembers
        (unsubscribeHandler (subscribeHandler ⟨[], [], []⟩ "s1" "u1" "task" "9" true)
          "s1" "u1" "task" "9" true).redis (userRoomsKey "u1") :=
  (c9_unsubscribe_cancels ⟨[], [], []⟩ "s1" "s2" "u1" "task" "9"
    (by decide) (by decide)).1

/-- C10: inert identity-less connection.  A non-worker socket whose
attached user has no uid makes the connection handler return right after
logging: the engine state (registry, rooms, durable store) is unchanged
and no subscribe/unsubscribe/disconnect (nor `ai:result`) handler is
installed, so the connection stays open but is inert for the engine. -/
theorem c10_inert_connection (st : EngineState) (sid : String) (ok : Bool) :
    connectionHandler st ⟨sid, none, false⟩ ok
      = (st, ⟨false, false, false, false⟩) := rfl

/-- C4 (against the code as it stands): the only handshake middleware,
`decodeSocketAuth`, never writes `socket.isWorker` — whatever verifier and
credentials are presented, every socket it admits has `isWorker` still
unset, so the worker branch of the connection handler (the branch that
installs the `ai:result` handler) is never taken for a middleware-admitted
socket. -/
theorem c4_no_worker_tagging (verify : String → Option String)
    (hs : Handshake) (sid : String) (s : Socket)
    (h : decodeSocketAuth verify (freshSocket sid) hs = Except.ok s) :
    s.isWorker = false
    ∧ ∀ (st : EngineState) (ok : Bool),
        (connectionHandler st s ok).2.aiResult = false := by
  have hshape : ∃ uid, s = ⟨sid, some uid, false⟩ := by
    unfold decodeSocketAuth at h
    cases hct : hs.cookieToken with
    | some t =>
      simp only [hct] at h
      cases hv : verify t with
      | some uid =>
        simp only [hv, freshSocket] at h
        rcases h with h
        exact ⟨uid, by
          cases h
          rfl⟩
      | none => simp [hv] at h
    | none =>
      simp only [hct] at h
      cases hat : hs.authToken with
      | some t =>
        simp only [hat] at h
        cases hv : verify t with
        | some uid =>
          simp only [hv, freshSocket] at h
          exact ⟨uid, by
            cases h
            rfl⟩
        | none => simp [hv] at h
      | none => simp [hat] at h
  obtain ⟨uid, rfl⟩ := hshape
  exact ⟨rfl, fun st ok => rfl⟩

/-- Closed witness for C4: a concrete verifier and handshake, the admitted
socket is untagged and the worker branch is not taken. -/
theorem c4_no_worker_tagging_witness :
    (Socket.mk "s1" (some "u1") false).isWorker = false
    ∧ (connectionHandler ⟨[], [], []⟩ ⟨"s1", some "u1", false⟩ true).2.aiResult
        = false := by
  have h := c4_no_worker_tagging (fun _ => some "u1") ⟨none, some "tok"⟩ "s1"
    ⟨"s1", some "u1", false⟩ rfl
  exact ⟨h.1, h.2 ⟨[], [], []⟩ true⟩

/-- C6 counterexample: a store failure at initialization terminates the
process.  `redisClient.connect()` rejecting makes `initializeSocketManager`
rethrow, and the server startup catch block calls `process.exit(1)`. -/
theorem c6_store_failure_exits : serverStartup false = some 1 := rfl

/-- C6 as amended: no runtime operation of the engine terminates the
process on a store failure — subscribe, unsubscribe and rehydration catch
the error, keep their transport-level effect and leave the durable store
unchanged (memory-only mode) — and the Redis client's reconnection delays
are bounded by 3000 ms with retries abandoned (an error value, not a
crash) past 3 attempts; but a store connect failure during initialization
is rethrown and the server startup exits the process with code 1. -/
theorem c6_amended_resilience (st : EngineState) (sid uid ty i : String) :
    subscribeHandler st sid uid ty i false
      = { st with rooms := alAdd st.rooms (ty ++ ":" ++ i) sid }
    ∧ unsubscribeHandler st sid uid ty i false
      = { st with rooms := alRemove st.rooms (ty ++ ":" ++ i) sid }
    ∧ (connectionHandler st ⟨sid, some uid, false⟩ false).1
      = { st with userSockets := alAdd st.userSockets uid sid,
                  rooms := alAdd st.rooms ("user:" ++ uid) sid }
    ∧ (∀ k : Nat, reconnectStrategy k
        = if 3 < k then Except.error "Max reconnection attempts reached"
          else Except.ok (min (k * 100) 3000))
    ∧ (∀ k : Nat, ((reconnectStrategy k).toOption.getD 0) ≤ 3000)
    ∧ serverStartup false = some 1 := by
  refine ⟨rfl, rfl, rfl, fun k => rfl, fun k => ?_, rfl⟩
  unfold reconnectStrategy
  by_cases h : 3 < k
  · simp [h, Except.toOption]
  · simp only [h, if_false, if_neg h, Except.toOption, Option.getD_some]
    exact min_le_right _ _

end NeuralFlow
